import Mathlib

/-!
Verification of the email-classification service (`src/api.py`, `src/api_old.py`)
against its natural-language specification.

The development shallow-embeds the request pipeline of both revisions:
raw request bytes are `List Nat`, text is `List Char`, the endpoints become
pure functions from the raw bytes (and the external model collaborator,
passed as a function argument) to an outcome record.  External collaborators
(the Python standard library `json` / `str` / `re` operations used by the
code, and BeautifulSoup's `get_text`) are modelled faithfully at the exact
call sites the code uses.
-/

namespace EmailApi

/-- Whitespace class of Python's `re` pattern `\s` and of `str.strip()`,
restricted to the ASCII range (the inputs considered here are ASCII or
basic-plane text; the Unicode extras of `\s` are irrelevant to them). -/
def isWs (c : Char) : Bool :=
  c = ' ' ∨ c = '\t' ∨ c = '\n' ∨ c = '\r' ∨ c = '\x0b' ∨ c = '\x0c'

/-- One maximal whitespace run, as buffered by `squeezeGo`: a run of two or
more whitespace characters collapses to a single space, a single whitespace
character is kept verbatim (the regex `\s{2,}` does not match a lone
whitespace character). -/
def flushRun : List Char → List Char
  | [] => []
  | [c] => [c]
  | _ => [' ']

/-- Worker for `squeeze`: `run` buffers the current maximal whitespace run. -/
def squeezeGo : List Char → List Char → List Char
  | run, [] => flushRun run
  | run, c :: rest =>
    if isWs c then squeezeGo (run ++ [c]) rest
    else flushRun run ++ c :: squeezeGo [] rest

/-- Embeds Python `re.sub(r'\s{2,}', ' ', text)` (api.py line 87): every
maximal run of two or more whitespace characters becomes one space. -/
def squeeze (s : List Char) : List Char := squeezeGo [] s

/-- Removes trailing whitespace characters (the right half of `str.strip()`). -/
def rstrip : List Char → List Char
  | [] => []
  | c :: t =>
    match rstrip t with
    | [] => if isWs c then [] else [c]
    | r => c :: r

/-- Embeds Python `str.strip()`: drop leading and trailing whitespace. -/
def pyStrip (l : List Char) : List Char := rstrip (l.dropWhile isWs)

/-- The final normalization step of `clean_text_content` (api.py line 87):
`re.sub(r'\s{2,}', ' ', text).strip()`. -/
def collapseWs (l : List Char) : List Char := pyStrip (squeeze l)

/-- A Python runtime value as far as `clean_text_content` inspects one: it
only distinguishes strings from non-strings (`isinstance(text_content, str)`),
asks for truthiness (`if not text_content`), and otherwise takes `str(x)`.
A non-string value is therefore represented by its `str()` rendering and its
truthiness. -/
inductive PyVal where
  | pstr (s : List Char)
  | pother (repr : List Char) (truthy : Bool)

/-- Python truthiness as used by `if not text_content`: a string is truthy
iff non-empty; a non-string value carries its truthiness. -/
def pyTruthy : PyVal → Bool
  | .pstr s => !s.isEmpty
  | .pother _ t => t

/-! ### BeautifulSoup model

`clean_text_content` (api.py) hands markup-looking strings to
`BeautifulSoup(text, 'html.parser')`, extracts every `script`/`style`
element, and calls `soup.get_text(separator=' ', strip=True)`;
`clean_html_content` (api_old.py) calls `get_text(separator=' ', strip=True)`
without removing `script`/`style`.  The model below reproduces that
behaviour: tags are skipped, `script`/`style` elements hold one raw CDATA
text fragment, ordinary text fragments have the basic character entities
decoded (html.parser decodes entities in text nodes), and `get_text` joins
the individually stripped, non-empty fragments with one space. -/

/-- Decode the basic HTML character entities that `html.parser` resolves in
text nodes (the ones exercised by the inputs considered here). -/
def decodeEntities : List Char → List Char
  | '&' :: 'l' :: 't' :: ';' :: t => '<' :: decodeEntities t
  | '&' :: 'g' :: 't' :: ';' :: t => '>' :: decodeEntities t
  | '&' :: 'a' :: 'm' :: 'p' :: ';' :: t => '&' :: decodeEntities t
  | c :: t => c :: decodeEntities t
  | [] => []

/-- Skip up to and past the next `>` (the end of a tag). -/
def dropToGt (s : List Char) : List Char := (s.dropWhile (fun c => c ≠ '>')).drop 1

/-- Split at the first occurrence of `pat`: returns the part before it and
the part after it, or `none` when `pat` does not occur. -/
def splitOnSub (pat : List Char) : List Char → Option (List Char × List Char)
  | [] => if pat = [] then some ([], []) else none
  | c :: t =>
    if pat.isPrefixOf (c :: t) then some ([], (c :: t).drop pat.length)
    else (splitOnSub pat t).map (fun p => (c :: p.1, p.2))

/-- Tokenizer for the BeautifulSoup model.  `acc` buffers the current text
fragment (in reverse).  Each produced fragment is paired with a flag saying
whether it is the CDATA content of a `script`/`style` element.  `fuel`
bounds the recursion; it is initialized to more than the input length, which
the scanning (every step consumes at least one character) never exceeds. -/
def htmlFragsAux : Nat → List Char → List Char → List (Bool × List Char)
  | 0, acc, _ => [(false, acc.reverse)]
  | _ + 1, acc, [] => [(false, acc.reverse)]
  | fuel + 1, acc, '<' :: rest =>
    match rest with
    | [] => [(false, ('<' :: acc).reverse)]
    | c :: _ =>
      if c.isAlpha then
        let name := rest.takeWhile Char.isAlpha
        let after := dropToGt rest
        if name = "script".toList ∨ name = "style".toList then
          match splitOnSub ('<' :: '/' :: name) after with
          | some (content, rest2) =>
            (false, acc.reverse) :: (true, content) :: htmlFragsAux fuel [] (dropToGt rest2)
          | none => [(false, acc.reverse), (true, after)]
        else (false, acc.reverse) :: htmlFragsAux fuel [] after
      else if c = '/' ∨ c = '!' then
        (false, acc.reverse) :: htmlFragsAux fuel [] (dropToGt rest)
      else htmlFragsAux fuel ('<' :: acc) rest
  | fuel + 1, acc, c :: rest => htmlFragsAux fuel (c :: acc) rest

/-- Model of `BeautifulSoup(s, 'html.parser')` followed by
`get_text(separator=' ', strip=True)`.  When `removeScriptStyle` is true the
`script`/`style` contents are first extracted, as api.py does with
`for script_or_style in soup(["script", "style"]): script_or_style.extract()`. -/
def bs4GetText (removeScriptStyle : Bool) (s : List Char) : List Char :=
  let frags := htmlFragsAux (s.length + 1) [] s
  let kept := frags.filter (fun f => !(removeScriptStyle && f.1))
  let texts := kept.map (fun f => if f.1 then pyStrip f.2 else pyStrip (decodeEntities f.2))
  List.intercalate [' '] (texts.filter (fun t => t ≠ []))

/-- Embeds `clean_html_content` of api_old.py (lines 71-75): empty input
yields the empty string, otherwise BeautifulSoup text extraction with a
space separator and per-fragment stripping (no script/style removal, no
whitespace collapsing). -/
def clean_html_content (s : List Char) : List Char :=
  if s.isEmpty then [] else bs4GetText false s

/-- Embeds `clean_text_content` of api.py (lines 71-88): falsy input yields
the empty string; non-string input is returned as its `str()` rendering;
a string containing both angle brackets and longer than 50 characters is
HTML-stripped (script/style contents removed) before the final
collapse-and-strip; every other string goes straight to collapse-and-strip. -/
def clean_text_content (v : PyVal) : List Char :=
  if pyTruthy v = false then []
  else
    match v with
    | .pother r _ => r
    | .pstr s =>
      let text := if ('<' ∈ s) ∧ ('>' ∈ s) ∧ 50 < s.length then bs4GetText true s else s
      collapseWs text

/-- `clean_text_content` on a plain string input, the normalizer of spec §4.1. -/
def normalizeStr (s : List Char) : List Char := clean_text_content (.pstr s)

/-! ### Python `str.replace` at the call sites of the tier-3 body patch

api_old.py lines 108-110 run a fixed chain of `str.replace` calls.  Python's
`str.replace` substitutes non-overlapping occurrences scanning left to
right; the scanners below implement exactly that for the one- and two-
character patterns the code uses. -/

/-- Embeds `str.replace(p, rep)` for a single-character pattern `p`. -/
def replace1 (p : Char) (rep : List Char) : List Char → List Char
  | [] => []
  | a :: t => if a = p then rep ++ replace1 p rep t else a :: replace1 p rep t

/-- Embeds `str.replace(p₁p₂, rep)` for a two-character pattern: scan left to
right, on a match skip both pattern characters (non-overlapping matches). -/
def replace2 (p1 p2 : Char) (rep : List Char) : List Char → List Char
  | [] => []
  | [a] => [a]
  | a :: b :: t =>
    if a = p1 ∧ b = p2 then rep ++ replace2 p1 p2 rep t
    else a :: replace2 p1 p2 rep (b :: t)

/-- Embeds `.replace('\\"', '"')` : backslash-quote becomes a bare quote. -/
def unescQ : List Char → List Char := replace2 '\\' '"' ['"']

/-- Embeds `.replace('"', '\\"')` : every quote gains a backslash. -/
def escQ : List Char → List Char := replace1 '"' ['\\', '"']

/-- Embeds `.replace('\n', '\\n')` : a literal newline becomes the
two-character sequence backslash-n. -/
def escNl : List Char → List Char := replace1 '\n' ['\\', 'n']

/-- Embeds `.replace('\r', '\\r')` : a literal carriage return becomes the
two-character sequence backslash-r. -/
def escCr : List Char → List Char := replace1 '\r' ['\\', 'r']

/-- The full replace chain of api_old.py lines 108-110, in source order:
`temp_body.replace('\\"', '"').replace('"', '\\"').replace('\n', '\\n')
.replace('\r', '\\r')` followed by `.replace('\\"', '"')`. -/
def tier3Chain (temp : List Char) : List Char :=
  unescQ (escCr (escNl (escQ (unescQ temp))))

/-! ### Python `str.find`, `str.rfind`, `in` and slicing -/

/-- Index of the first occurrence of `pat` at or after position `i`. -/
def firstOccAux (pat : List Char) : Nat → List Char → Option Nat
  | i, s =>
    if pat.isPrefixOf s then some i
    else
      match s with
      | [] => none
      | _ :: t => firstOccAux pat (i + 1) t

/-- Index of the last occurrence of `pat` at or after position `i`. -/
def lastOccAux (pat : List Char) : Nat → List Char → Option Nat
  | i, s =>
    let rest :=
      match s with
      | [] => none
      | _ :: t => lastOccAux pat (i + 1) t
    match rest with
    | some j => some j
    | none => if pat.isPrefixOf s then some i else none

/-- Embeds Python `s.find(pat)` for non-empty `pat`: first index, or -1. -/
def pyFind (s pat : List Char) : Int :=
  match firstOccAux pat 0 s with
  | some n => (n : Int)
  | none => -1

/-- Embeds Python `s.rfind(pat)` for non-empty `pat`: last index, or -1. -/
def pyRfind (s pat : List Char) : Int :=
  match lastOccAux pat 0 s with
  | some n => (n : Int)
  | none => -1

/-- Embeds Python `pat in s` (substring membership). -/
def containsSub (s pat : List Char) : Bool := (firstOccAux pat 0 s).isSome

/-- Embeds Python slicing `s[i:j]` for non-negative bounds. -/
def pySlice (s : List Char) (i j : Nat) : List Char := (s.take j).drop i

/-! ### The regular-expression field scan of api_old.py

api_old.py lines 91-92 run `re.search(r'"<key>":\s*"(.*?)(?<!\\)"', raw)`,
with `re.DOTALL` for the `body` key.  Semantics: at each candidate start
position, the literal `"<key>":` must match, then `\s*` skips whitespace, a
quote opens the value, and the lazy group captures up to the first quote not
directly preceded by a backslash; without DOTALL the captured span may not
contain a newline (`.` excludes it), which makes the match at that start
fail and the search resume at later occurrences of the key. -/

/-- Scan a value: capture characters until a quote whose directly preceding
character (`prev`) is not a backslash; fail at end of input, and — without
`dotall` — at a newline. -/
def scanValue (dotall : Bool) (prev : Char) : List Char → Option (List Char)
  | [] => none
  | c :: t =>
    if c = '"' ∧ prev ≠ '\\' then some []
    else if ¬dotall ∧ c = '\n' then none
    else (scanValue dotall c t).map (fun v => c :: v)

/-- Try to match the full key-value pattern at the present position. -/
def tryKeyAt (key : List Char) (dotall : Bool) (s : List Char) : Option (List Char) :=
  let pat := '"' :: (key ++ ['"', ':'])
  if pat.isPrefixOf s then
    match (s.drop pat.length).dropWhile isWs with
    | '"' :: v => scanValue dotall '"' v
    | _ => none
  else none

/-- Embeds `re.search(r'"<key>":\s*"(.*?)(?<!\\)"', s)` returning the first
captured group: try every start position from the left. -/
def reSearchKV (key : List Char) (dotall : Bool) : List Char → Option (List Char)
  | [] => none
  | c :: t =>
    match tryKeyAt key dotall (c :: t) with
    | some v => some v
    | none => reSearchKV key dotall t

/-! ### UTF-8 decoding

Embeds Python `bytes.decode('utf-8')` (strict errors): rejects bytes ≥ 0x80
that do not form a valid sequence, overlong encodings and surrogates. -/

/-- Is `b` a UTF-8 continuation byte (0x80-0xBF)? -/
def isCont (b : Nat) : Bool := 0x80 ≤ b ∧ b ≤ 0xBF

/-- Strict UTF-8 decoder over byte lists; `none` models `UnicodeDecodeError`. -/
def utf8Decode : List Nat → Option (List Char)
  | [] => some []
  | b :: t =>
    if b < 0x80 then (utf8Decode t).map (fun r => Char.ofNat b :: r)
    else if 0xC2 ≤ b ∧ b ≤ 0xDF then
      match t with
      | b2 :: t2 =>
        if isCont b2 then
          (utf8Decode t2).map (fun r => Char.ofNat ((b - 0xC0) * 64 + (b2 - 0x80)) :: r)
        else none
      | _ => none
    else if 0xE0 ≤ b ∧ b ≤ 0xEF then
      match t with
      | b2 :: b3 :: t3 =>
        let lo2 := if b = 0xE0 then 0xA0 else 0x80
        let hi2 := if b = 0xED then 0x9F else 0xBF
        if (lo2 ≤ b2 ∧ b2 ≤ hi2) ∧ isCont b3 then
          (utf8Decode t3).map
            (fun r => Char.ofNat (((b - 0xE0) * 64 + (b2 - 0x80)) * 64 + (b3 - 0x80)) :: r)
        else none
      | _ => none
    else if 0xF0 ≤ b ∧ b ≤ 0xF4 then
      match t with
      | b2 :: b3 :: b4 :: t4 =>
        let lo2 := if b = 0xF0 then 0x90 else 0x80
        let hi2 := if b = 0xF4 then 0x8F else 0xBF
        if (lo2 ≤ b2 ∧ b2 ≤ hi2) ∧ isCont b3 ∧ isCont b4 then
          (utf8Decode t4).map
            (fun r =>
              Char.ofNat ((((b - 0xF0) * 64 + (b2 - 0x80)) * 64 + (b3 - 0x80)) * 64 + (b4 - 0x80)) :: r)
        else none
      | _ => none
    else none

/-- The bytes of an ASCII string (used to build concrete request bodies). -/
def asciiBytes (s : List Char) : List Nat := s.map Char.toNat

/-! ### JSON parsing

api.py line 110 calls `json.loads(raw_body_str)` (the Python standard
library, strict JSON grammar plus the CPython extras `NaN`, `Infinity`,
`-Infinity`); a `JSONDecodeError` is answered with status 400.  The model
below is a fuel-indexed recursive-descent parser for that grammar; numbers
are kept as their raw token (the pipeline never looks inside them), and
duplicate object keys are resolved by `lookupLast`, matching the last-wins
behaviour of `json.loads`. -/

/-- A parsed JSON value as produced by `json.loads`. -/
inductive Json where
  | null
  | bool (b : Bool)
  | num (raw : List Char)
  | str (s : List Char)
  | arr (xs : List Json)
  | obj (fields : List (List Char × Json))

/-- JSON inter-token whitespace (space, tab, newline, carriage return). -/
def jsonWs (c : Char) : Bool := c = ' ' ∨ c = '\t' ∨ c = '\n' ∨ c = '\r'

/-- Hexadecimal digit value, for `\uXXXX` escapes. -/
def hexVal (c : Char) : Option Nat :=
  if '0' ≤ c ∧ c ≤ '9' then some (c.toNat - '0'.toNat)
  else if 'a' ≤ c ∧ c ≤ 'f' then some (c.toNat - 'a'.toNat + 10)
  else if 'A' ≤ c ∧ c ≤ 'F' then some (c.toNat - 'A'.toNat + 10)
  else none

/-- Parse the remainder of a JSON string literal (after the opening quote):
returns the decoded contents and the input after the closing quote.
Unescaped control characters are rejected (strict mode), escapes are the
JSON ones; a `\uXXXX` escape must denote a scalar value (the lone-surrogate
corner CPython tolerates is not needed by any input considered here). -/
def parseJStr : List Char → Option (List Char × List Char)
  | [] => none
  | '"' :: t => some ([], t)
  | '\\' :: e :: t =>
    match e with
    | '"' => (parseJStr t).map (fun p => ('"' :: p.1, p.2))
    | '\\' => (parseJStr t).map (fun p => ('\\' :: p.1, p.2))
    | '/' => (parseJStr t).map (fun p => ('/' :: p.1, p.2))
    | 'b' => (parseJStr t).map (fun p => ('\x08' :: p.1, p.2))
    | 'f' => (parseJStr t).map (fun p => ('\x0c' :: p.1, p.2))
    | 'n' => (parseJStr t).map (fun p => ('\n' :: p.1, p.2))
    | 'r' => (parseJStr t).map (fun p => ('\r' :: p.1, p.2))
    | 't' => (parseJStr t).map (fun p => ('\t' :: p.1, p.2))
    | 'u' =>
      match t with
      | h1 :: h2 :: h3 :: h4 :: t2 =>
        match hexVal h1, hexVal h2, hexVal h3, hexVal h4 with
        | some v1, some v2, some v3, some v4 =>
          let n := ((v1 * 16 + v2) * 16 + v3) * 16 + v4
          if n < 0xD800 ∨ 0xE000 ≤ n then
            (parseJStr t2).map (fun p => (Char.ofNat n :: p.1, p.2))
          else none
        | _, _, _, _ => none
      | _ => none
    | _ => none
  | c :: t =>
    if c.toNat < 0x20 then none
    else (parseJStr t).map (fun p => (c :: p.1, p.2))

/-- The digit prefix of `s` and what follows it. -/
def digitSpan (s : List Char) : List Char × List Char :=
  (s.takeWhile Char.isDigit, s.dropWhile Char.isDigit)

/-- Optional exponent part of a JSON number token. -/
def parseExpPart (tok : List Char) (s : List Char) : Option (List Char × List Char) :=
  match s with
  | e :: r =>
    if e = 'e' ∨ e = 'E' then
      let (sg, r2) :=
        match r with
        | '+' :: r2 => (['+'], r2)
        | '-' :: r2 => (['-'], r2)
        | _ => (([] : List Char), r)
      let (ds, r3) := digitSpan r2
      if ds = [] then none else some (tok ++ e :: (sg ++ ds), r3)
    else some (tok, s)
  | [] => some (tok, [])

/-- Optional fraction part (then exponent) of a JSON number token. -/
def parseFracPart (tok : List Char) (s : List Char) : Option (List Char × List Char) :=
  match s with
  | '.' :: r =>
    let (ds, r2) := digitSpan r
    if ds = [] then none else parseExpPart (tok ++ '.' :: ds) r2
  | _ => parseExpPart tok s

/-- A JSON number token without its sign: `0` or a nonzero digit followed by
digits, then optional fraction and exponent. -/
def parseNumNoSign : List Char → Option (List Char × List Char)
  | '0' :: r => parseFracPart ['0'] r
  | c :: r =>
    if c.isDigit then
      let (ds, r2) := digitSpan r
      parseFracPart (c :: ds) r2
    else none
  | [] => none

/-- A JSON number token, with optional leading minus. -/
def parseNum : List Char → Option (List Char × List Char)
  | '-' :: r => (parseNumNoSign r).map (fun p => ('-' :: p.1, p.2))
  | s => parseNumNoSign s

mutual

/-- Parse one JSON value; `fuel` bounds the recursion depth (every nested
call consumes at least one input character, so `length + 1` fuel suffices). -/
def parseVal : Nat → List Char → Option (Json × List Char)
  | 0, _ => none
  | fuel + 1, s =>
    let r := s.dropWhile jsonWs
    if "true".toList.isPrefixOf r then some (.bool true, r.drop 4)
    else if "false".toList.isPrefixOf r then some (.bool false, r.drop 5)
    else if "null".toList.isPrefixOf r then some (.null, r.drop 4)
    else if "NaN".toList.isPrefixOf r then some (.num "NaN".toList, r.drop 3)
    else if "Infinity".toList.isPrefixOf r then some (.num "Infinity".toList, r.drop 8)
    else if "-Infinity".toList.isPrefixOf r then some (.num "-Infinity".toList, r.drop 9)
    else
      match r with
      | '{' :: rest =>
        match rest.dropWhile jsonWs with
        | '}' :: r2 => some (.obj [], r2)
        | _ => parseObjRest fuel [] rest
      | '[' :: rest =>
        match rest.dropWhile jsonWs with
        | ']' :: r2 => some (.arr [], r2)
        | _ => parseArrRest fuel [] rest
      | '"' :: rest => (parseJStr rest).map (fun p => (.str p.1, p.2))
      | _ => (parseNum r).map (fun p => (.num p.1, p.2))

/-- Parse the members of an object after `{` (or after a comma). -/
def parseObjRest : Nat → List (List Char × Json) → List Char → Option (Json × List Char)
  | 0, _, _ => none
  | fuel + 1, acc, s =>
    match s.dropWhile jsonWs with
    | '"' :: r =>
      match parseJStr r with
      | some (key, r2) =>
        match r2.dropWhile jsonWs with
        | ':' :: r3 =>
          match parseVal fuel r3 with
          | some (v, r4) =>
            match r4.dropWhile jsonWs with
            | ',' :: r5 => parseObjRest fuel ((key, v) :: acc) r5
            | '}' :: r5 => some (.obj (((key, v) :: acc).reverse), r5)
            | _ => none
          | none => none
        | _ => none
      | none => none
    | _ => none

/-- Parse the items of an array after `[` (or after a comma). -/
def parseArrRest : Nat → List Json → List Char → Option (Json × List Char)
  | 0, _, _ => none
  | fuel + 1, acc, s =>
    match parseVal fuel s with
    | some (v, r) =>
      match r.dropWhile jsonWs with
      | ',' :: r2 => parseArrRest fuel (v :: acc) r2
      | ']' :: r2 => some (.arr ((v :: acc).reverse), r2)
      | _ => none
    | none => none

end

/-- Embeds `json.loads(s)`: parse one value and require only whitespace to
remain; `none` models `json.JSONDecodeError`. -/
def jsonParse (s : List Char) : Option Json :=
  match parseVal (s.length + 1) s with
  | some (v, rest) => if rest.dropWhile jsonWs = [] then some v else none
  | none => none

/-- Last binding of key `k`, matching the duplicate-key behaviour of the
`dict` built by `json.loads`. -/
def lookupLast (fs : List (List Char × Json)) (k : List Char) : Option Json :=
  match fs with
  | [] => none
  | (k', v) :: t =>
    match lookupLast t k with
    | some r => some r
    | none => if k' = k then some v else none

/-! ### The two `/classify_email/` endpoint revisions

The external model collaborator (`classification_chain.ainvoke`) is passed
in as a function from subject and cleaned body to its output string.  The
outcome records the HTTP status produced, the `category` field of a success
response, and whether the collaborator was invoked. -/

/-- Result of one request: status, the returned category (success only),
and whether the external model collaborator was invoked. -/
structure Outcome where
  status : Nat
  category : Option (List Char)
  modelCalled : Bool
deriving DecidableEq

/-- The literal key `subject`. -/
def subjectKey : List Char := "subject".toList

/-- The literal key `body`. -/
def bodyKey : List Char := "body".toList

/-- The literal marker `dir="` tested by `'dir="' in raw_body_str`. -/
def dirMarker : List Char := "dir=\"".toList

/-- The literal start marker `"body": "` of the tier-3 patch. -/
def bodyMarker : List Char := "\"body\": \"".toList

/-- The literal end marker quote-newline-brace searched by
`raw_body_str.rfind('"\n\x7d')`. -/
def endMarker : List Char := "\"\n\x7d".toList

/-- api_old.py line 91: the `subject` regex scan (no DOTALL), empty string
when there is no match. -/
def oldExtractSubject (s : List Char) : List Char :=
  (reSearchKV subjectKey false s).getD []

/-- api_old.py line 92: the `body` regex scan with `re.DOTALL`, empty string
when there is no match. -/
def oldTier2Body (s : List Char) : List Char :=
  (reSearchKV bodyKey true s).getD []

/-- api_old.py lines 99-110: the aggressive body patch.  When the tier-2
scan produced an empty body and the raw text contains `dir="`, slice from
`find('"body": "') + 9` to `rfind('"\n\x7d')` (guarded) and run the replace
chain; otherwise keep the tier-2 result. -/
def oldBodyPatch (s tier2 : List Char) : List Char :=
  if tier2 = [] ∧ containsSub s dirMarker then
    let bsi : Int := pyFind s bodyMarker + 9
    let bei : Int := pyRfind s endMarker
    if bsi ≠ -1 ∧ bei ≠ -1 ∧ bsi < bei then tier3Chain (pySlice s bsi.toNat bei.toNat)
    else tier2
  else tier2

/-- The complete body extraction of api_old.py's classify endpoint. -/
def oldExtractBody (s : List Char) : List Char := oldBodyPatch s (oldTier2Body s)

/-- Embeds `classify_email_endpoint` of api_old.py (lines 80-132): decode
(failure falls into the generic handler, status 500), regex-extract subject
and body, apply the tier-3 patch, build `EmailInput` (always valid: both
are strings), clean the body and invoke the collaborator. -/
def classify_email_endpoint_old (collab : List Char → List Char → List Char)
    (raw : List Nat) : Outcome :=
  match utf8Decode raw with
  | none => ⟨500, none, false⟩
  | some s =>
    let subj := oldExtractSubject s
    let body := oldExtractBody s
    let cleaned := clean_html_content body
    ⟨200, some (pyStrip (collab subj cleaned)), true⟩

/-- `EmailInput(**data)` of api.py: requires `data` to supply string values
for `subject` and `body` (pydantic rejects missing and non-string fields). -/
def getStrField (fs : List (List Char × Json)) (k : List Char) : Option (List Char) :=
  match lookupLast fs k with
  | some (.str v) => some v
  | _ => none

/-- Embeds `classify_email_endpoint` of api.py (lines 96-148): decode
failure falls through to the generic `except Exception` handler (500);
a `json.JSONDecodeError` is answered 400; a pydantic `ValidationError`
(missing or non-string `subject`/`body` in a parsed object) is answered
422; `EmailInput(**data)` on a non-object raises a `TypeError`, also landing
in the generic handler (500); on success the body is normalized, the
collaborator invoked, and its stripped output returned as the category. -/
def classify_email_endpoint (collab : List Char → List Char → List Char)
    (raw : List Nat) : Outcome :=
  match utf8Decode raw with
  | none => ⟨500, none, false⟩
  | some s =>
    match jsonParse s with
    | none => ⟨400, none, false⟩
    | some (.obj fs) =>
      match getStrField fs subjectKey, getStrField fs bodyKey with
      | some a, some b => ⟨200, some (pyStrip (collab a (clean_text_content (.pstr b)))), true⟩
      | _, _ => ⟨422, none, false⟩
    | some _ => ⟨500, none, false⟩

/-- Modelled from the claim's words (C3), for comparison with `tier3Chain`:
an un-escaping that turns `\"` into `"`, the two-character escape `\n` into
a newline character and the two-character escape `\r` into a carriage
return, in the order the claim lists them. -/
def claimedTier3Unescape (temp : List Char) : List Char :=
  replace2 '\\' 'r' ['\r'] (replace2 '\\' 'n' ['\n'] (replace2 '\\' '"' ['"'] temp))

/-- A fixed sample collaborator used by closed counterexamples. -/
def collabConst : List Char → List Char → List Char := fun _ _ => "General".toList

/-! ### Auxiliary predicate and concrete sample inputs -/

/-- No two adjacent whitespace characters: the invariant established by
`squeeze`, under which `re.sub(r'\s{2,}', ' ', ·)` is the identity. -/
inductive NoRun : List Char → Prop
  | nil : NoRun []
  | single (c : Char) : NoRun [c]
  | cons (a b : Char) (t : List Char) :
      ¬(isWs a = true ∧ isWs b = true) → NoRun (b :: t) → NoRun (a :: b :: t)

/-- The request body of the C1 counterexample: decodes as UTF-8 but is not
valid JSON (`json.loads` fails at the bare closing brace). -/
def c1raw : List Nat := asciiBytes "\x7b\"subject\": \"a\", \"body\": \x7d".toList

/-- The decoded text of `c1raw`. -/
def c1str : List Char := "\x7b\"subject\": \"a\", \"body\": \x7d".toList

/-- C2 witness input: well-formed JSON whose fields exercise the string
escapes. -/
def c2str : List Char :=
  "\x7b\"subject\": \"He said \\\"hi\\\"\", \"body\": \"A\\nB\"\x7d".toList

/-- The object fields `json.loads` produces for `c2str`. -/
def c2fields : List (List Char × Json) :=
  [(subjectKey, .str "He said \"hi\"".toList), (bodyKey, .str "A\nB".toList)]

/-- C3 sample raw text: `dir="` sits inside the subject value, the body
value holds a two-character `\n` escape, a literal newline, a literal
carriage return and escaped quotes, and no unescaped quote terminates it, so
the tier-2 scan fails and the tier-3 patch runs with its start marker
genuinely present. -/
def c3raw : List Char :=
  "\x7b\"subject\": \"x dir=\"x\", \"body\": \"A\\nB\nC\rD\\\" E\\\"\n\x7d".toList

/-- C4 input: the spec's own example, 32 characters long. -/
def c4input : List Char := "<p>Hi</p><script>evil()</script>".toList

/-- C4 amended input: the same markup padded past the 50-character
threshold with a `style` element. -/
def c4long : List Char :=
  "<p>Hi</p><script>evil()</script><style>abcdefghijklmnopqr</style>".toList

/-- C5 counterexample input: long markup whose text contains HTML-encoded
angle brackets, which the first normalization pass decodes into fresh
markup. -/
def c5input : List Char :=
  "<p>aaaaaaaaaaaaaaaaaaaaaaaaaaaaaaaaaaaaaaaaaaaaaaaaaa &lt;b&gt;bold&lt;/b&gt; here</p>".toList

/-- C6 witness input: valid JSON object with no `body` member. -/
def c6raw : List Nat := asciiBytes "\x7b\"subject\": \"a\"\x7d".toList

/-- The decoded text of `c6raw`. -/
def c6str : List Char := "\x7b\"subject\": \"a\"\x7d".toList

/-- The object fields `json.loads` produces for `c6str`. -/
def c6fields : List (List Char × Json) := [(subjectKey, .str ['a'])]

/-- C8 counterexample input: the Python list `['a  b']` (a non-string,
truthy value whose `str()` rendering contains a double space). -/
def c8input : PyVal := .pother "['a  b']".toList true

/-- C9 witness input: a well-formed request body. -/
def c9raw : List Nat := asciiBytes "\x7b\"subject\": \"a\", \"body\": \"b\"\x7d".toList

/-- The decoded text of `c9raw`. -/
def c9str : List Char := "\x7b\"subject\": \"a\", \"body\": \"b\"\x7d".toList

/-- The object fields `json.loads` produces for `c9str`. -/
def c9fields : List (List Char × Json) := [(subjectKey, .str ['a']), (bodyKey, .str ['b'])]

/-- C9 witness collaborator: returns a padded label outside the closed
category set. -/
def collabWeird : List Char → List Char → List Char := fun _ _ => "  Weird Label \n".toList

/-- C10 witness input: contains `dir="` but not `"body": "`, with the
terminator quote-newline-brace at index 21. -/
def c10str : List Char := "\x7b\"subject\": \"q dir=\"q\"\n\x7d".toList

/-! ## Lemmas

### The net effect of the tier-3 replace chain -/

theorem replace1_nil (p : Char) (rep : List Char) : replace1 p rep [] = [] := rfl

theorem replace1_cons (p : Char) (rep : List Char) (a : Char) (t : List Char) :
    replace1 p rep (a :: t) =
      if a = p then rep ++ replace1 p rep t else a :: replace1 p rep t := rfl

theorem replace2_cons_cons (p1 p2 : Char) (rep : List Char) (a b : Char) (t : List Char) :
    replace2 p1 p2 rep (a :: b :: t) =
      if a = p1 ∧ b = p2 then rep ++ replace2 p1 p2 rep t
      else a :: replace2 p1 p2 rep (b :: t) := rfl

theorem unescQ_cons_of (c : Char) (Y : List Char)
    (h : c ≠ '\\' ∨ Y.head? ≠ some '"') : unescQ (c :: Y) = c :: unescQ Y := by
  cases Y with
  | nil => rfl
  | cons d Y' =>
    show replace2 '\\' '"' ['"'] (c :: d :: Y') = _
    rw [replace2_cons_cons]
    have : ¬(c = '\\' ∧ d = '"') := by
      rcases h with h | h
      · exact fun hc => h hc.1
      · exact fun hc => h (by simp [hc.2])
    simp [this]
    rfl

theorem unescQ_cons_bsq (Y : List Char) : unescQ ('\\' :: '"' :: Y) = '"' :: unescQ Y := by
  show replace2 '\\' '"' ['"'] _ = _
  rw [replace2_cons_cons, if_pos ⟨rfl, rfl⟩]
  rfl

theorem escQ_cons (c : Char) (t : List Char) :
    escQ (c :: t) = if c = '"' then '\\' :: '"' :: escQ t else c :: escQ t := by
  show replace1 '"' ['\\', '"'] _ = _
  rw [replace1_cons]
  split <;> rfl

theorem escNl_cons (c : Char) (t : List Char) :
    escNl (c :: t) = if c = '\n' then '\\' :: 'n' :: escNl t else c :: escNl t := by
  show replace1 '\n' ['\\', 'n'] _ = _
  rw [replace1_cons]
  split <;> rfl

theorem escCr_cons (c : Char) (t : List Char) :
    escCr (c :: t) = if c = '\r' then '\\' :: 'r' :: escCr t else c :: escCr t := by
  show replace1 '\r' ['\\', 'r'] _ = _
  rw [replace1_cons]
  split <;> rfl

/-- The head of the partially transformed span is never a bare quote: `escQ`
prefixes every quote with a backslash, and the newline/carriage-return
replacements only introduce backslash-letter pairs. -/
theorem head_escCr_escNl_escQ_ne_quote (t : List Char) :
    (escCr (escNl (escQ t))).head? ≠ some '"' := by
  cases t with
  | nil => simp [escQ, escNl, escCr, replace1]
  | cons c t' =>
    rw [escQ_cons]
    by_cases hc : c = '"'
    · subst hc
      rw [if_pos rfl, escNl_cons, if_neg (by decide), escCr_cons, if_neg (by decide)]
      simp
    · rw [if_neg hc, escNl_cons]
      by_cases hn : c = '\n'
      · subst hn
        rw [if_pos rfl, escCr_cons, if_neg (by decide)]
        simp
      · rw [if_neg hn, escCr_cons]
        by_cases hr : c = '\r'
        · subst hr
          rw [if_pos rfl]
          simp
        · rw [if_neg hr]
          simp [hc]

/-- Net effect of `escQ` then `escNl` then `escCr` then `unescQ`: the
re-escape/un-escape round trip on quotes cancels, leaving only the
newline and carriage-return escaping. -/
theorem unescQ_escCr_escNl_escQ (u : List Char) :
    unescQ (escCr (escNl (escQ u))) = escCr (escNl u) := by
  induction u with
  | nil => rfl
  | cons c t ih =>
    by_cases hc : c = '"'
    · subst hc
      rw [escQ_cons, if_pos rfl, escNl_cons, if_neg (by decide), escNl_cons,
        if_neg (by decide), escCr_cons, if_neg (by decide), escCr_cons,
        if_neg (by decide), unescQ_cons_bsq, ih, escNl_cons, if_neg (by decide),
        escCr_cons, if_neg (by decide)]
    · by_cases hn : c = '\n'
      · subst hn
        rw [escQ_cons, if_neg (by decide), escNl_cons, if_pos rfl, escCr_cons,
          if_neg (by decide), escCr_cons, if_neg (by decide),
          unescQ_cons_of '\\' _ (Or.inr (by simp)),
          unescQ_cons_of 'n' _ (Or.inl (by decide)), ih, escNl_cons, if_pos rfl,
          escCr_cons, if_neg (by decide), escCr_cons, if_neg (by decide)]
      · by_cases hr : c = '\r'
        · subst hr
          rw [escQ_cons, if_neg (by decide), escNl_cons, if_neg (by decide),
            escCr_cons, if_pos rfl,
            unescQ_cons_of '\\' _ (Or.inr (by simp)),
            unescQ_cons_of 'r' _ (Or.inl (by decide)), ih, escNl_cons,
            if_neg (by decide), escCr_cons, if_pos rfl]
        · rw [escQ_cons, if_neg hc, escNl_cons, if_neg hn, escCr_cons, if_neg hr,
            unescQ_cons_of c _ ?_, ih, escNl_cons, if_neg hn, escCr_cons, if_neg hr]
          by_cases hb : c = '\\'
          · exact Or.inr (head_escCr_escNl_escQ_ne_quote t)
          · exact Or.inl hb

/-- The tier-3 replace chain un-escapes quotes and escapes literal newlines
and carriage returns. -/
theorem tier3Chain_eq (temp : List Char) :
    tier3Chain temp = escCr (escNl (unescQ temp)) :=
  unescQ_escCr_escNl_escQ (unescQ temp)

/-! ### Idempotence of the collapse-and-strip step -/

theorem flushRun_length_le_one (run : List Char) : (flushRun run).length ≤ 1 := by
  cases run with
  | nil => simp [flushRun]
  | cons a t => cases t <;> simp [flushRun]

theorem flushRun_mem {c : Char} {run : List Char} (h : c ∈ flushRun run) :
    c = ' ' ∨ c ∈ run := by
  cases run with
  | nil => simp [flushRun] at h
  | cons a t =>
    cases t with
    | nil => simp [flushRun] at h; simp [h]
    | cons b t' => simp [flushRun] at h; simp [h]

theorem noRun_tail {c : Char} {l : List Char} (h : NoRun (c :: l)) : NoRun l := by
  cases h with
  | single => exact NoRun.nil
  | cons _ _ _ _ h2 => exact h2

theorem noRun_of_short {l : List Char} (h : l.length ≤ 1) : NoRun l := by
  cases l with
  | nil => exact NoRun.nil
  | cons a t =>
    cases t with
    | nil => exact NoRun.single a
    | cons b t' => simp at h

theorem noRun_cons_of_not_ws {c : Char} {l : List Char}
    (hc : isWs c = false) (h : NoRun l) : NoRun (c :: l) := by
  cases l with
  | nil => exact NoRun.single c
  | cons b t => exact NoRun.cons c b t (fun hp => by rw [hc] at hp; exact Bool.false_ne_true hp.1) h

theorem noRun_append_short {x l : List Char} {c : Char}
    (hx : x.length ≤ 1) (hc : isWs c = false) (h : NoRun l) :
    NoRun (x ++ c :: l) := by
  cases x with
  | nil => exact noRun_cons_of_not_ws hc h
  | cons a t =>
    cases t with
    | nil =>
      exact NoRun.cons a c l (fun hp => by rw [hc] at hp; exact Bool.false_ne_true hp.2)
        (noRun_cons_of_not_ws hc h)
    | cons b t' => simp at hx

theorem squeezeGo_noRun (s : List Char) :
    ∀ run : List Char, NoRun (squeezeGo run s) := by
  induction s with
  | nil => intro run; exact noRun_of_short (flushRun_length_le_one run)
  | cons c rest ih =>
    intro run
    by_cases hw : isWs c = true
    · simp [squeezeGo, hw]
      exact ih (run ++ [c])
    · have hw' : isWs c = false := by simpa using hw
      simp [squeezeGo, hw']
      exact noRun_append_short (flushRun_length_le_one run) hw' (ih [])

theorem squeeze_noRun (s : List Char) : NoRun (squeeze s) := squeezeGo_noRun s []

theorem squeeze_id {s : List Char} (h : NoRun s) : squeeze s = s := by
  induction s with
  | nil => rfl
  | cons c rest ih =>
    by_cases hw : isWs c = true
    · show squeezeGo [] (c :: rest) = c :: rest
      simp [squeezeGo, hw]
      cases rest with
      | nil => rfl
      | cons d rest' =>
        have hd : isWs d = false := by
          cases h with
          | cons _ _ _ hp _ =>
            rcases Bool.eq_false_or_eq_true (isWs d) with hdt | hdf
            · exact absurd ⟨hw, hdt⟩ hp
            · exact hdf
        have ihr : squeezeGo [] (d :: rest') = d :: rest' := ih (noRun_tail h)
        have ihr' : d :: squeezeGo [] rest' = d :: rest' := by
          rw [← ihr]; simp [squeezeGo, hd, flushRun]
        have hrest' : squeezeGo [] rest' = rest' := List.cons_injective.eq_iff.mp ihr'
        simp [squeezeGo, hd, flushRun, hrest']
    · have hw' : isWs c = false := by simpa using hw
      show squeezeGo [] (c :: rest) = c :: rest
      simp [squeezeGo, hw', flushRun]
      exact ih (noRun_tail h)

theorem rstrip_nil : rstrip [] = [] := rfl

theorem rstrip_cons (c : Char) (t : List Char) :
    rstrip (c :: t) =
      match rstrip t with
      | [] => if isWs c then [] else [c]
      | r => c :: r := rfl

theorem rstrip_subset {c : Char} {l : List Char} (h : c ∈ rstrip l) : c ∈ l := by
  induction l with
  | nil => simpa [rstrip] using h
  | cons a t ih =>
    rw [rstrip_cons] at h
    rcases hr : rstrip t with _ | ⟨b, r'⟩
    · rw [hr] at h
      by_cases hw : isWs a
      · simp [hw] at h
      · simp [hw] at h; simp [h]
    · rw [hr] at h
      rcases List.mem_cons.mp h with h1 | h2
      · simp [h1]
      · exact List.mem_cons_of_mem a (ih (hr ▸ h2))

theorem rstrip_length_le (l : List Char) : (rstrip l).length ≤ l.length := by
  induction l with
  | nil => simp [rstrip]
  | cons a t ih =>
    rw [rstrip_cons]
    rcases hr : rstrip t with _ | ⟨b, r'⟩
    · by_cases hw : isWs a <;> simp [hw]
    · rw [hr] at ih; simpa using Nat.succ_le_succ ih

theorem rstrip_head {l : List Char} (h : rstrip l ≠ []) :
    (rstrip l).head? = l.head? := by
  cases l with
  | nil => simp [rstrip]
  | cons a t =>
    rw [rstrip_cons] at h ⊢
    rcases hr : rstrip t with _ | ⟨b, r'⟩
    · rw [hr] at h
      by_cases hw : isWs a
      · simp [hw] at h
      · simp [hw]
    · simp

theorem rstrip_idem (l : List Char) : rstrip (rstrip l) = rstrip l := by
  induction l with
  | nil => rfl
  | cons a t ih =>
    rw [rstrip_cons]
    rcases hr : rstrip t with _ | ⟨b, r'⟩
    · by_cases hw : isWs a
      · simp [hw]
        rfl
      · simp [hw, rstrip]
    · rw [hr] at ih
      show rstrip (a :: b :: r') = a :: b :: r'
      rw [rstrip_cons, ih]

theorem rstrip_noRun {l : List Char} (h : NoRun l) : NoRun (rstrip l) := by
  induction l with
  | nil => exact NoRun.nil
  | cons a t ih =>
    rw [rstrip_cons]
    rcases hr : rstrip t with _ | ⟨b, r'⟩
    · by_cases hw : isWs a
      · simp [hw]; exact NoRun.nil
      · simp [hw]; exact NoRun.single a
    · have hnr : NoRun (b :: r') := hr ▸ ih (noRun_tail h)
      have hb : (b :: r').head? = t.head? := by
        rw [← hr]; exact rstrip_head (by rw [hr]; simp)
      cases t with
      | nil => simp [rstrip] at hr
      | cons d t' =>
        have hbd : b = d := by simpa using hb
        subst hbd
        cases h with
        | cons _ _ _ hp _ => exact NoRun.cons a b r' hp hnr

theorem dropWhile_subset {p : Char → Bool} {c : Char} {l : List Char}
    (h : c ∈ l.dropWhile p) : c ∈ l := by
  induction l with
  | nil => simpa using h
  | cons a t ih =>
    by_cases hp : p a
    · rw [List.dropWhile_cons_of_pos hp] at h
      exact List.mem_cons_of_mem a (ih h)
    · rwa [List.dropWhile_cons_of_neg hp] at h

theorem dropWhile_length_le (p : Char → Bool) (l : List Char) :
    (l.dropWhile p).length ≤ l.length := by
  induction l with
  | nil => simp
  | cons a t ih =>
    by_cases hp : p a
    · rw [List.dropWhile_cons_of_pos hp]
      exact le_trans ih (Nat.le_succ _)
    · rw [List.dropWhile_cons_of_neg hp]

theorem dropWhile_noRun {p : Char → Bool} {l : List Char} (h : NoRun l) :
    NoRun (l.dropWhile p) := by
  induction l with
  | nil => exact NoRun.nil
  | cons a t ih =>
    by_cases hp : p a
    · rw [List.dropWhile_cons_of_pos hp]
      exact ih (noRun_tail h)
    · rw [List.dropWhile_cons_of_neg hp]
      exact h

theorem pyStrip_noRun {l : List Char} (h : NoRun l) : NoRun (pyStrip l) :=
  rstrip_noRun (dropWhile_noRun h)

theorem pyStrip_subset {c : Char} {l : List Char} (h : c ∈ pyStrip l) : c ∈ l :=
  dropWhile_subset (rstrip_subset h)

theorem pyStrip_length_le (l : List Char) : (pyStrip l).length ≤ l.length :=
  le_trans (rstrip_length_le _) (dropWhile_length_le _ _)

theorem pyStrip_idem (l : List Char) : pyStrip (pyStrip l) = pyStrip l := by
  show rstrip ((rstrip (l.dropWhile isWs)).dropWhile isWs) = rstrip (l.dropWhile isWs)
  rcases hr : rstrip (l.dropWhile isWs) with _ | ⟨b, r'⟩
  · simp [rstrip]
  · have hhead : (b :: r').head? = (l.dropWhile isWs).head? := by
      rw [← hr]; exact rstrip_head (by rw [hr]; simp)
    have hb : isWs b = false := by
      rcases hd : l.dropWhile isWs with _ | ⟨d, t'⟩
      · rw [hd] at hhead; simp at hhead
      · rw [hd] at hhead
        have hbd : b = d := by simpa using hhead
        subst hbd
        have := List.head?_dropWhile_not isWs l
        rw [hd] at this
        simpa using this
    rw [List.dropWhile_cons_of_neg (by simp [hb]), ← hr, rstrip_idem]

theorem collapseWs_idem (l : List Char) : collapseWs (collapseWs l) = collapseWs l := by
  show pyStrip (squeeze (pyStrip (squeeze l))) = pyStrip (squeeze l)
  rw [squeeze_id (pyStrip_noRun (squeeze_noRun l)), pyStrip_idem]

theorem flushRun_length_le (run : List Char) : (flushRun run).length ≤ run.length := by
  rcases run with _ | ⟨a, t⟩
  · simp [flushRun]
  · rcases t with _ | ⟨b, t'⟩ <;> simp [flushRun]

theorem squeezeGo_length (s : List Char) :
    ∀ run : List Char, (squeezeGo run s).length ≤ run.length + s.length := by
  induction s with
  | nil =>
    intro run
    show (flushRun run).length ≤ run.length + ([] : List Char).length
    simpa using flushRun_length_le run
  | cons c rest ih =>
    intro run
    by_cases hw : isWs c = true
    · simp only [squeezeGo, hw, if_true]
      calc (squeezeGo (run ++ [c]) rest).length ≤ (run ++ [c]).length + rest.length := ih _
        _ = run.length + (c :: rest).length := by simp; omega
    · have hw' : isWs c = false := by simpa using hw
      simp only [squeezeGo, hw', Bool.false_eq_true, if_false]
      have h0 : (flushRun run).length ≤ run.length := flushRun_length_le run
      have h2 := ih ([] : List Char)
      simp only [List.length_nil, Nat.zero_add] at h2
      simp only [List.length_append, List.length_cons]
      omega

theorem squeeze_length_le (s : List Char) : (squeeze s).length ≤ s.length := by
  simpa using squeezeGo_length s []

theorem squeezeGo_mem {c : Char} (s : List Char) :
    ∀ run : List Char, c ∈ squeezeGo run s → c = ' ' ∨ c ∈ run ∨ c ∈ s := by
  induction s with
  | nil =>
    intro run h
    simp only [squeezeGo] at h
    rcases flushRun_mem h with h1 | h2
    · exact Or.inl h1
    · exact Or.inr (Or.inl h2)
  | cons d rest ih =>
    intro run h
    by_cases hw : isWs d = true
    · simp only [squeezeGo, hw, if_true] at h
      rcases ih _ h with h1 | h2 | h3
      · exact Or.inl h1
      · rcases List.mem_append.mp h2 with h2a | h2b
        · exact Or.inr (Or.inl h2a)
        · simp at h2b; simp [h2b]
      · simp [h3]
    · have hw' : isWs d = false := by simpa using hw
      simp only [squeezeGo, hw', Bool.false_eq_true, if_false] at h
      rcases List.mem_append.mp h with h1 | h2
      · rcases flushRun_mem h1 with ha | hb
        · exact Or.inl ha
        · exact Or.inr (Or.inl hb)
      · rcases List.mem_cons.mp h2 with ha | hb
        · simp [ha]
        · rcases ih _ hb with x | y | z
          · exact Or.inl x
          · simp at y
          · simp [z]

theorem squeeze_mem {c : Char} {s : List Char} (h : c ∈ squeeze s) :
    c = ' ' ∨ c ∈ s := by
  rcases squeezeGo_mem s [] h with h1 | h2 | h3
  · exact Or.inl h1
  · simp at h2
  · exact Or.inr h3

theorem collapseWs_subset {c : Char} {l : List Char} (h : c ∈ collapseWs l) :
    c = ' ' ∨ c ∈ l :=
  squeeze_mem (pyStrip_subset h)

theorem collapseWs_length_le (l : List Char) : (collapseWs l).length ≤ l.length :=
  le_trans (pyStrip_length_le _) (squeeze_length_le _)

theorem normalizeStr_no_trigger {s : List Char}
    (h : ¬(('<' ∈ s) ∧ ('>' ∈ s) ∧ 50 < s.length)) : normalizeStr s = collapseWs s := by
  show clean_text_content (.pstr s) = collapseWs s
  unfold clean_text_content
  by_cases hs : s = []
  · subst hs
    simp [pyTruthy]
    rfl
  · have ht : pyTruthy (.pstr s) = true := by simp [pyTruthy, hs]
    rw [ht]
    simp only [Bool.true_eq_false, if_false, if_neg h]

/-! ## Claim theorems: the normalizer (C4, C5, C8) -/

/-- C4, counterexample: on the spec's own 32-character example
`<p>Hi</p><script>evil()</script>`, `clean_text_content` does not return
`Hi`; the input is below the 50-character markup threshold and is returned
unchanged. -/
theorem c4_counterexample :
    normalizeStr c4input = c4input ∧ normalizeStr c4input ≠ "Hi".toList := by
  constructor
  · decide
  · decide

/-- C4, amended: normalization removes `script` and `style` element
contents entirely once the markup heuristic triggers (both angle brackets
present and more than 50 characters); on the example markup padded past the
threshold with a `style` element, the result is exactly `Hi`. -/
theorem c4_theorem :
    ('<' ∈ c4long) ∧ ('>' ∈ c4long) ∧ 50 < c4long.length ∧
      normalizeStr c4long = "Hi".toList := by
  refine ⟨by decide, by decide, by decide, by decide⟩

/-- C5, counterexample: normalization is not idempotent.  On a long markup
input whose text contains HTML-encoded angle brackets, the first pass
decodes the entities into fresh markup and the second pass strips it. -/
theorem c5_counterexample :
    normalizeStr (normalizeStr c5input) ≠ normalizeStr c5input := by decide

/-- C5, amended: normalization is idempotent on every input that does not
trigger the markup-stripping heuristic, i.e. lacking `<` or `>` or at most
50 characters long (in general it is not idempotent, because entity
decoding during HTML stripping can reintroduce markup). -/
theorem c5_theorem (s : List Char)
    (h : ¬(('<' ∈ s) ∧ ('>' ∈ s) ∧ 50 < s.length)) :
    normalizeStr (normalizeStr s) = normalizeStr s := by
  rw [normalizeStr_no_trigger h]
  have h2 : ¬(('<' ∈ collapseWs s) ∧ ('>' ∈ collapseWs s) ∧ 50 < (collapseWs s).length) := by
    rintro ⟨hlt, hgt, hlen⟩
    apply h
    refine ⟨?_, ?_, lt_of_lt_of_le hlen (collapseWs_length_le s)⟩
    · rcases collapseWs_subset hlt with he | hm
      · exact absurd he (by decide)
      · exact hm
    · rcases collapseWs_subset hgt with he | hm
      · exact absurd he (by decide)
      · exact hm
  rw [normalizeStr_no_trigger h2, collapseWs_idem]

/-- C5, witness: the amended idempotence theorem applied to a concrete
short string containing markup and double spaces. -/
theorem c5_witness :
    ¬(('<' ∈ "ab  <tag> cd".toList) ∧ ('>' ∈ "ab  <tag> cd".toList) ∧
        50 < "ab  <tag> cd".toList.length) ∧
      normalizeStr (normalizeStr "ab  <tag> cd".toList) =
        normalizeStr "ab  <tag> cd".toList :=
  ⟨by decide, c5_theorem _ (by decide)⟩

/-- C8, counterexample: for the non-string input `['a  b']` (truthy, with a
double space in its `str()` rendering) the collapse-and-trim step is not
applied: the result is not a fixpoint of collapse-and-trim, contradicting
the claim that the final step runs for every input. -/
theorem c8_counterexample :
    clean_text_content c8input ≠ collapseWs (clean_text_content c8input) := by decide

/-- C8, amended: the final collapse-and-trim step is applied exactly on the
string-input path — there the result is always a fixpoint of
collapse-and-trim, whether or not markup stripping ran; a truthy non-string
input is returned as its string representation with no collapsing or
trimming, and a falsy input yields the empty string. -/
theorem c8_theorem :
    (∀ s : List Char,
        clean_text_content (.pstr s) = collapseWs (clean_text_content (.pstr s))) ∧
    (∀ r : List Char, clean_text_content (.pother r true) = r) ∧
    (∀ r : List Char, clean_text_content (.pother r false) = []) := by
  refine ⟨?_, fun r => rfl, fun r => rfl⟩
  intro s
  by_cases hs : s = []
  · subst hs; rfl
  · have ht : pyTruthy (.pstr s) = true := by simp [pyTruthy, hs]
    unfold clean_text_content
    rw [ht]
    simp only [Bool.true_eq_false, if_false]
    exact (collapseWs_idem _).symm

/-! ### Find/rfind support lemmas -/

theorem lastOccAux_nil (pat : List Char) (i : Nat) :
    lastOccAux pat i [] = if pat.isPrefixOf [] then some i else none := rfl

theorem lastOccAux_cons (pat : List Char) (i : Nat) (c : Char) (t : List Char) :
    lastOccAux pat i (c :: t) =
      match lastOccAux pat (i + 1) t with
      | some j => some j
      | none => if pat.isPrefixOf (c :: t) then some i else none := rfl

theorem isPrefixOf_length_le {p : List Char} :
    ∀ {l : List Char}, p.isPrefixOf l = true → p.length ≤ l.length := by
  induction p with
  | nil => intro l _; simp
  | cons a p' ih =>
    intro l h
    cases l with
    | nil => simp [List.isPrefixOf] at h
    | cons b l' =>
      simp only [List.isPrefixOf, Bool.and_eq_true] at h
      simpa using ih h.2

theorem lastOccAux_bound (pat : List Char) :
    ∀ (s : List Char) (i j : Nat), lastOccAux pat i s = some j →
      i ≤ j ∧ j + pat.length ≤ i + s.length := by
  intro s
  induction s with
  | nil =>
    intro i j h
    rw [lastOccAux_nil] at h
    split at h
    · rename_i hp
      have hl := isPrefixOf_length_le hp
      simp only [List.length_nil] at hl
      have hij : i = j := Option.some.inj h
      subst hij
      simp only [List.length_nil]
      omega
    · cases h
  | cons c t ih =>
    intro i j h
    rw [lastOccAux_cons] at h
    rcases hr : lastOccAux pat (i + 1) t with _ | n
    · rw [hr] at h
      simp only at h
      split at h
      · rename_i hp
        have hl := isPrefixOf_length_le hp
        have hij : i = j := Option.some.inj h
        simp only [List.length_cons] at hl ⊢
        omega
      · cases h
    · rw [hr] at h
      simp only at h
      have hj : n = j := Option.some.inj h
      have hij := ih (i + 1) n hr
      simp only [List.length_cons]
      omega

theorem pyFind_of_not_contains {s pat : List Char} (h : containsSub s pat = false) :
    pyFind s pat = -1 := by
  unfold pyFind
  unfold containsSub at h
  rcases hf : firstOccAux pat 0 s with _ | n
  · rfl
  · rw [hf] at h; simp at h

theorem pyFind_nonneg {s pat : List Char} (h : pyFind s pat ≠ -1) :
    0 ≤ pyFind s pat := by
  unfold pyFind at h ⊢
  rcases hf : firstOccAux pat 0 s with _ | n
  · rw [hf] at h
    exact absurd rfl h
  · simpa using Int.natCast_nonneg n

theorem pyRfind_eq_some {s pat : List Char} {k : Int} (hk : pyRfind s pat = k)
    (h0 : 0 ≤ k) : lastOccAux pat 0 s = some k.toNat := by
  unfold pyRfind at hk
  rcases hl : lastOccAux pat 0 s with _ | n
  · rw [hl] at hk
    simp only at hk
    omega
  · rw [hl] at hk
    simp only at hk
    rw [← hk]
    simp

/-! ### Non-emptiness of the replace chain -/

theorem replace1_ne_nil {p : Char} {rep l : List Char} (hrep : rep ≠ []) (h : l ≠ []) :
    replace1 p rep l ≠ [] := by
  cases l with
  | nil => exact absurd rfl h
  | cons a t =>
    rw [replace1_cons]
    split
    · simp [hrep]
    · simp

theorem replace2_ne_nil {p1 p2 : Char} {rep l : List Char} (hrep : rep ≠ []) (h : l ≠ []) :
    replace2 p1 p2 rep l ≠ [] := by
  match l with
  | [] => exact absurd rfl h
  | [a] => simp [replace2]
  | a :: b :: t =>
    rw [replace2_cons_cons]
    split
    · simp [hrep]
    · simp

theorem tier3Chain_ne_nil {l : List Char} (h : l ≠ []) : tier3Chain l ≠ [] := by
  unfold tier3Chain unescQ escQ escNl escCr
  apply replace2_ne_nil (by simp)
  apply replace1_ne_nil (by simp)
  apply replace1_ne_nil (by simp)
  apply replace1_ne_nil (by simp)
  exact replace2_ne_nil (by simp) h

/-! ## Claim theorems: the endpoints (C1, C2, C6, C7, C9) -/

/-- C1, counterexample: the current revision's `/classify_email/` rejects a
request body that decodes as UTF-8 but fails strict JSON parsing with a 400
JSON-decode-failure response and performs no pattern-based fallback scan
(the model collaborator is not invoked and no category is produced). -/
theorem c1_counterexample :
    classify_email_endpoint collabConst c1raw = ⟨400, none, false⟩ := by decide

/-- C1, amended: for every request body that decodes as UTF-8 but fails
strict JSON parsing, the current revision (api.py) answers 400 without
invoking the collaborator, while the old revision (api_old.py) is the one
that applies the pattern-based scan — it extracts subject and body with the
key-value regex scans (category is not scanned by its classify endpoint),
never rejects such a request, and always reaches the collaborator. -/
theorem c1_theorem (collab : List Char → List Char → List Char) (raw : List Nat)
    (s : List Char) (hdec : utf8Decode raw = some s) (hparse : jsonParse s = none) :
    classify_email_endpoint collab raw = ⟨400, none, false⟩ ∧
    classify_email_endpoint_old collab raw =
      ⟨200, some (pyStrip (collab (oldExtractSubject s)
        (clean_html_content (oldExtractBody s)))), true⟩ := by
  constructor
  · unfold classify_email_endpoint
    simp only [hdec, hparse]
  · unfold classify_email_endpoint_old
    simp only [hdec]

/-- C1, witness: the amended theorem applied to the concrete malformed
request `c1raw`. -/
theorem c1_witness :
    classify_email_endpoint collabConst c1raw = ⟨400, none, false⟩ ∧
    classify_email_endpoint_old collabConst c1raw =
      ⟨200, some (pyStrip (collabConst (oldExtractSubject c1str)
        (clean_html_content (oldExtractBody c1str)))), true⟩ :=
  c1_theorem collabConst c1raw c1str (by rfl) (by rfl)

/-- C2: for every well-formed JSON input whose parsed object carries string
values for `subject` and `body`, tier-1 extraction (`EmailInput(**data)`
after `json.loads`) yields exactly those strings, unchanged. -/
theorem c2_theorem (s : List Char) (fs : List (List Char × Json)) (a b : List Char)
    (hp : jsonParse s = some (.obj fs))
    (ha : lookupLast fs subjectKey = some (.str a))
    (hb : lookupLast fs bodyKey = some (.str b)) :
    getStrField fs subjectKey = some a ∧ getStrField fs bodyKey = some b := by
  unfold getStrField
  rw [ha, hb]
  exact ⟨rfl, rfl⟩

/-- C2, witness: the theorem applied to a concrete JSON body whose fields
contain escaped quotes and an escaped newline. -/
theorem c2_witness :
    getStrField c2fields subjectKey = some "He said \"hi\"".toList ∧
    getStrField c2fields bodyKey = some "A\nB".toList :=
  c2_theorem c2str c2fields _ _ (by rfl) (by rfl) (by rfl)

/-- C6: for every request whose payload parses as a JSON object lacking the
`body` member, `/classify_email/` (api.py) answers 422 and never invokes
the model collaborator. -/
theorem c6_theorem (collab : List Char → List Char → List Char) (raw : List Nat)
    (s : List Char) (fs : List (List Char × Json))
    (hdec : utf8Decode raw = some s)
    (hp : jsonParse s = some (.obj fs))
    (hb : lookupLast fs bodyKey = none) :
    classify_email_endpoint collab raw = ⟨422, none, false⟩ := by
  have hbf : getStrField fs bodyKey = none := by unfold getStrField; rw [hb]
  rcases hsub : getStrField fs subjectKey with _ | a
  · unfold classify_email_endpoint
    simp only [hdec, hp, hsub, hbf]
  · unfold classify_email_endpoint
    simp only [hdec, hp, hsub, hbf]

/-- C6, witness: the theorem applied to the concrete request
`c6raw = {"subject": "a"}` (braces elided). -/
theorem c6_witness :
    classify_email_endpoint collabConst c6raw = ⟨422, none, false⟩ :=
  c6_theorem collabConst c6raw c6str c6fields (by rfl) (by rfl) (by rfl)

/-- C7, counterexample: on the undecodable byte 0xFF, `/classify_email/`
(api.py) does not answer 400 — the `UnicodeDecodeError` falls through to
the generic handler and produces a 500 (the collaborator is still never
invoked). -/
theorem c7_counterexample :
    classify_email_endpoint collabConst [255] = ⟨500, none, false⟩ ∧
      (classify_email_endpoint collabConst [255]).status ≠ 400 := by
  constructor
  · decide
  · decide

/-- C7, amended: for every request whose raw bytes cannot be decoded as
UTF-8, `/classify_email/` (api.py) answers 500 — the decode error lands in
the generic `except Exception` handler rather than a 400 path — and the
model collaborator is never invoked. -/
theorem c7_theorem (collab : List Char → List Char → List Char) (raw : List Nat)
    (hdec : utf8Decode raw = none) :
    classify_email_endpoint collab raw = ⟨500, none, false⟩ := by
  unfold classify_email_endpoint
  simp only [hdec]

/-- C7, witness: the amended theorem applied to the single byte 0xFF. -/
theorem c7_witness :
    classify_email_endpoint collabConst [255] = ⟨500, none, false⟩ :=
  c7_theorem collabConst [255] (by rfl)

/-- C9: for every collaborator and every successfully validated request,
the `category` field of the `/classify_email/` response is exactly the
collaborator's output string with surrounding whitespace stripped — no
validation against the closed category set takes place, whatever string the
collaborator returns. -/
theorem c9_theorem (collab : List Char → List Char → List Char) (raw : List Nat)
    (s : List Char) (fs : List (List Char × Json)) (a b : List Char)
    (hdec : utf8Decode raw = some s)
    (hp : jsonParse s = some (.obj fs))
    (ha : lookupLast fs subjectKey = some (.str a))
    (hb : lookupLast fs bodyKey = some (.str b)) :
    classify_email_endpoint collab raw =
      ⟨200, some (pyStrip (collab a (clean_text_content (.pstr b)))), true⟩ := by
  have h1 : getStrField fs subjectKey = some a := by unfold getStrField; rw [ha]
  have h2 : getStrField fs bodyKey = some b := by unfold getStrField; rw [hb]
  unfold classify_email_endpoint
  simp only [hdec, hp, h1, h2]

/-- C9, witness: with a collaborator returning the padded label
`  Weird Label \n`, outside the closed category set, the response category
is exactly that string stripped. -/
theorem c9_witness :
    classify_email_endpoint collabWeird c9raw = ⟨200, some ("Weird Label".toList), true⟩ := by
  have h := c9_theorem collabWeird c9raw c9str c9fields ['a'] ['b']
    (by rfl) (by rfl) (by rfl) (by rfl)
  rw [h]
  decide

/-! ## Claim theorems: the tier-3 body patch (C3, C10) -/

/-- C3, counterexample: on the concrete malformed payload `c3raw` the
tier-3 recovery does not perform the un-escaping the claim describes — the
extracted body differs from applying `\" → "`, two-character `\n` → newline
and two-character `\r` → carriage return to the recovered span (the
two-character `\n` escape in the span survives unchanged and the literal
newline is turned into a two-character escape, not the other way round). -/
theorem c3_counterexample :
    oldExtractBody c3raw ≠
      claimedTier3Unescape (pySlice c3raw (pyFind c3raw bodyMarker + 9).toNat
        (pyRfind c3raw endMarker).toNat) := by decide

/-- C3, amended: whenever the tier-3 patch fires with its start marker
present (tier-2 body empty, `dir="` present, terminator after the start),
the span between the markers is transformed by replacing every
backslash-quote pair with a bare quote, then every literal newline with the
two-character sequence backslash-n and every literal carriage return with
backslash-r; pre-existing two-character `\n` and `\r` escapes are left
untouched (the chain escapes newlines, it does not un-escape them). -/
theorem c3_theorem (s : List Char) (k : Int)
    (ht2 : oldTier2Body s = [])
    (hdir : containsSub s dirMarker = true)
    (hfind : pyFind s bodyMarker ≠ -1)
    (hk : pyRfind s endMarker = k)
    (hlt : pyFind s bodyMarker + 9 < k) :
    oldExtractBody s =
      escCr (escNl (unescQ (pySlice s (pyFind s bodyMarker + 9).toNat k.toNat))) := by
  have h0 : (0 : Int) ≤ pyFind s bodyMarker := pyFind_nonneg hfind
  unfold oldExtractBody oldBodyPatch
  rw [ht2, hdir, hk]
  rw [if_pos ⟨rfl, rfl⟩]
  rw [if_pos ⟨by omega, by omega, hlt⟩]
  exact tier3Chain_eq _

/-- C3, witness: the amended theorem applied to the concrete payload
`c3raw`, whose span exercises escaped quotes, a two-character `\n` escape,
a literal newline and a literal carriage return. -/
theorem c3_witness :
    oldExtractBody c3raw =
      escCr (escNl (unescQ (pySlice c3raw (pyFind c3raw bodyMarker + 9).toNat
        ((46 : Int)).toNat))) :=
  c3_theorem c3raw 46 (by decide) (by decide) (by decide) (by decide) (by decide)

/-- C10: when the raw text contains `dir="` but not the literal start
marker `"body": "`, `find` returns -1, so `body_start_index` is fixed at 8
and the `!= -1` guard cannot fail; if additionally the tier-2 scan found no
body and the terminator `"\n`-brace sits at an index above 8, a non-empty
body is extracted from the slice of the raw text starting at character
offset 8 — an arbitrary slice, not the value of any `body` field. -/
theorem c10_theorem (s : List Char) (k : Int)
    (hnb : containsSub s bodyMarker = false)
    (hdir : containsSub s dirMarker = true)
    (ht2 : oldTier2Body s = [])
    (hk : pyRfind s endMarker = k)
    (hk8 : 8 < k) :
    pyFind s bodyMarker = -1 ∧
    oldExtractBody s = tier3Chain (pySlice s 8 k.toNat) ∧
    oldExtractBody s ≠ [] := by
  have hf : pyFind s bodyMarker = -1 := pyFind_of_not_contains hnb
  have hlast : lastOccAux endMarker 0 s = some k.toNat := pyRfind_eq_some hk (by omega)
  have hbound := lastOccAux_bound endMarker s 0 k.toNat hlast
  have hem : endMarker.length = 3 := rfl
  have hslice_len : (pySlice s 8 k.toNat).length = k.toNat - 8 := by
    unfold pySlice
    rw [List.length_drop, List.length_take]
    omega
  have hslice_ne : pySlice s 8 k.toNat ≠ [] := by
    intro hnil
    rw [hnil] at hslice_len
    simp only [List.length_nil] at hslice_len
    omega
  have hbody : oldExtractBody s = tier3Chain (pySlice s 8 k.toNat) := by
    unfold oldExtractBody oldBodyPatch
    rw [ht2, hdir, hf, hk]
    rw [if_pos ⟨rfl, rfl⟩]
    rw [if_pos ⟨by norm_num, by omega, by omega⟩]
    norm_num
    rfl
  exact ⟨hf, hbody, hbody ▸ tier3Chain_ne_nil hslice_ne⟩

/-- C10, witness: the theorem applied to the concrete payload `c10str`,
whose extracted "body" is the raw slice from offset 8 to the terminator at
index 21 — a fragment of the subject member, not a body value. -/
theorem c10_witness :
    pyFind c10str bodyMarker = -1 ∧
    oldExtractBody c10str = tier3Chain (pySlice c10str 8 ((21 : Int)).toNat) ∧
    oldExtractBody c10str ≠ [] :=
  c10_theorem c10str 21 (by decide) (by decide) (by decide) (by decide) (by decide)

end EmailApi
